import Mathlib

/-!
# Verification of the `research-service` streaming chat client

Shallow embedding of `src/client/js/app.js` (class `ChatApp`).

* The markdown/sanitizer pipeline `DOMPurify.sanitize(marked.parse(·))` is an
  external black box; it is abstracted throughout as a pure parameter
  `render : String → String`.
* `streamReplyWebSocket` is modelled as a left fold of the WebSocket handler
  bodies (`onmessage` / `onerror` / `onclose`) over the list of events the
  channel delivers.  The JS `Promise` settlement discipline (a promise settles
  at most once; later `resolve`/`reject` calls are no-ops) is part of the
  platform semantics and is modelled by the `settled : Option Bool` field;
  `settleCount` counts the settle transitions so that "finalized fires exactly
  once" is a statement about the model.
* `handleSendMessage` is the controller: it trims the input, rejects empty
  input, appends the user message, runs one streaming session (which appends
  the bot message), and on promise rejection appends the apology bot message
  from its `catch` block.
* `extractEssayContent` / `generatePDF` embed the exporter.  The regex
  `/<essay>(.*?)<\/essay>/s` (lazy, dot-matches-newline) is realised by
  first-occurrence substring search: the group is the text between the first
  `<essay>` and the first `</essay>` after it.  JS `String.prototype.trim` is
  modelled by `trimChars` on `List Char`.
-/

namespace ResearchService

inductive Sender where
  | user
  | bot
deriving DecidableEq

/-- One entry of the chat window (the display log): its sender, the plain
text it holds, and the markup actually displayed. -/
structure Msg where
  sender : Sender
  rawText : String
  renderedMarkup : String
deriving DecidableEq

/-- Events delivered on one WebSocket channel, in delivery order. -/
inductive WsEvent where
  | chunk (data : String)
  | error
  | close
deriving DecidableEq

/-- The literal appended to `botMsg.innerHTML` in `ws.onerror`
(`app.js` line 140). -/
def errorNotice : String := "\nError: Connection failed"

/-- The bot message appended by the `catch` block of `handleSendMessage`
(`app.js` line 33). -/
def apologyText : String := "Sorry, I encountered an error. Please try again."

/-- State of one streaming session: the running text, the bot message's
current markup (`botMsg.innerHTML`), the promise settlement
(`none` pending, `some true` resolved, `some false` rejected), the number of
settle transitions, and the text the copy affordance was enabled with. -/
structure SessionState where
  accumulatedText : String
  markup : String
  settled : Option Bool
  settleCount : Nat
  copyText : Option String
deriving DecidableEq

def initSession : SessionState :=
  { accumulatedText := "", markup := "", settled := none, settleCount := 0,
    copyText := none }

/-- One WebSocket handler invocation (`app.js` lines 131–148).
`onmessage` appends the chunk and re-renders the **full** accumulated text;
`onerror` appends the error notice and rejects; `onclose` enables the copy
affordance with the accumulated text and resolves.  `resolve`/`reject` settle
the promise only when it is still pending. -/
def streamStep (render : String → String) (st : SessionState) :
    WsEvent → SessionState
  | WsEvent.chunk s =>
      { st with accumulatedText := st.accumulatedText ++ s,
                markup := render (st.accumulatedText ++ s) }
  | WsEvent.error =>
      match st.settled with
      | none =>
          { st with markup := st.markup ++ errorNotice, settled := some false,
                    settleCount := st.settleCount + 1 }
      | some _ => { st with markup := st.markup ++ errorNotice }
  | WsEvent.close =>
      match st.settled with
      | none =>
          { st with copyText := some st.accumulatedText, settled := some true,
                    settleCount := st.settleCount + 1 }
      | some _ => { st with copyText := some st.accumulatedText }

/-- Model of `streamReplyWebSocket` (`app.js` lines 117–150): the session state after
the channel has delivered `trace`. -/
def streamReplyWebSocket (render : String → String) (trace : List WsEvent) :
    SessionState :=
  trace.foldl (streamStep render) initSession

/-- Whitespace test used by JS `trim` (spaces, tabs, newlines). -/
def isWs (c : Char) : Bool := c.isWhitespace

def ltrim (l : List Char) : List Char := l.dropWhile isWs

def rtrim (l : List Char) : List Char := (l.reverse.dropWhile isWs).reverse

/-- Model of `String.prototype.trim` on character lists. -/
def trimChars (l : List Char) : List Char := rtrim (ltrim l)

/-- Model of `String.prototype.trim` on strings. -/
def strTrim (s : String) : String := String.mk (trimChars s.data)

/-- Model of `handleSendMessage` (`app.js` lines 22–35) composed with the session it
awaits.  Returns the final display log and whether a channel was opened.
The input is trimmed; empty input is a no-op.  Otherwise the user message is
appended (`textContent := text`), `streamReplyWebSocket` appends the bot
message and processes `trace`; if the session's promise was rejected the
`catch` block appends the apology bot message (rendered via `appendMessage`).
The value returned for a `trace` that never settles is the log as it stands
at that point (the `await` has not yet returned). -/
def handleSendMessage (render : String → String) (inputValue : String)
    (trace : List WsEvent) (store : List Msg) : List Msg × Bool :=
  let text := strTrim inputValue
  if text = "" then (store, false)
  else
    let st := streamReplyWebSocket render trace
    let base := store ++
      [⟨Sender.user, text, text⟩, ⟨Sender.bot, st.accumulatedText, st.markup⟩]
    if st.settled = some false then
      (base ++ [⟨Sender.bot, apologyText, render apologyText⟩], true)
    else (base, true)

/-! ## Content exporter (`app.js` lines 152–212) -/

/-- The start marker of the regex `/<essay>(.*?)<\/essay>/s`. -/
def openTag : List Char := ['<', 'e', 's', 's', 'a', 'y', '>']

/-- The end marker of the regex `/<essay>(.*?)<\/essay>/s`. -/
def closeTag : List Char := ['<', '/', 'e', 's', 's', 'a', 'y', '>']

/-- The fallback literal searched with `indexOf` (`app.js` line 175). -/
def essayMarker : List Char := "📝 Generating comprehensive essay..".data

/-- The separator appended after each extracted piece (`'\n\n'`). -/
def nlnl : List Char := ['\n', '\n']

/-- First-occurrence substring search: splits `l` around the first occurrence
of `pat`, returning the part before it and the part after it. -/
def splitFirst (pat : List Char) : List Char → Option (List Char × List Char)
  | [] => none
  | c :: cs =>
    if pat.isPrefixOf (c :: cs) then some ([], (c :: cs).drop pat.length)
    else (splitFirst pat cs).map fun p => (c :: p.1, p.2)

/-- Whether `l` has `pat` as a (contiguous) substring. -/
def containsSub (pat l : List Char) : Bool := (splitFirst pat l).isSome

/-- The fallback branch of `extractEssayContent` (`app.js` lines 174–182):
everything after the literal marker, trimmed, kept only when non-empty. -/
def fallbackExtract (text : List Char) : List Char :=
  match splitFirst essayMarker text with
  | some (_, afterMarker) =>
      let essayText := trimChars afterMarker
      if essayText ≠ [] then essayText ++ nlnl else []
  | none => []

/-- The per-message body of the `forEach` in `extractEssayContent`
(`app.js` lines 166–183).  The lazy regex group is the text between the
first `<essay>` and the first `</essay>` after it; the JS guard
`if (essayMatch && essayMatch[1])` is a **truthiness** test, so an empty
group (`""`) also falls through to the fallback branch. -/
def extractFromMessage (text : List Char) : List Char :=
  match splitFirst openTag text with
  | some (_, afterOpen) =>
      match splitFirst closeTag afterOpen with
      | some (inner, _) =>
          if inner ≠ [] then trimChars inner ++ nlnl else fallbackExtract text
      | none => fallbackExtract text
  | none => fallbackExtract text

/-- Model of `extractEssayContent` (`app.js` lines 162–187) over the texts of the bot
messages in insertion order: accumulate each message's contribution, then
trim the total. -/
def extractEssayContent (msgs : List (List Char)) : List Char :=
  trimChars (msgs.foldl (fun acc m => acc ++ extractFromMessage m) [])

/-- The downloadable artifact produced by `generatePDF`: either a paginated
document built from the line-wrapped text, or a plain-text file. -/
inductive Artifact where
  | pdfDoc (lines : List String)
  | textFile (content : String) (filename : String)
deriving DecidableEq

/-- Model of `generatePDF` (`app.js` lines 189–200).  `splitTextToSize` is the jsPDF
line-wrapping black box, abstracted as a parameter; `jspdfAvailable` is the
capability check `typeof jspdf !== 'undefined'`.  When available the
structured document is produced from `splitTextToSize(content, 180)`;
otherwise `downloadTextFile(content, 'essay.txt')` runs. -/
def generatePDF (splitTextToSize : String → Nat → List String)
    (jspdfAvailable : Bool) (content : String) : Artifact :=
  if jspdfAvailable then Artifact.pdfDoc (splitTextToSize content 180)
  else Artifact.textFile content "essay.txt"

/-! ## Session lemmas -/

theorem chunks_acc (render : String → String) (cs : List String)
    (st : SessionState) :
    ((cs.map WsEvent.chunk).foldl (streamStep render) st).accumulatedText
      = cs.foldl (· ++ ·) st.accumulatedText := by
  induction cs generalizing st with
  | nil => rfl
  | cons c cs ih =>
    simp only [List.map_cons, List.foldl_cons]
    rw [ih]
    simp [streamStep]

theorem chunks_settled (render : String → String) (cs : List String)
    (st : SessionState) :
    ((cs.map WsEvent.chunk).foldl (streamStep render) st).settled = st.settled := by
  induction cs generalizing st with
  | nil => rfl
  | cons c cs ih =>
    simp only [List.map_cons, List.foldl_cons]
    rw [ih]
    simp [streamStep]

theorem chunks_count (render : String → String) (cs : List String)
    (st : SessionState) :
    ((cs.map WsEvent.chunk).foldl (streamStep render) st).settleCount
      = st.settleCount := by
  induction cs generalizing st with
  | nil => rfl
  | cons c cs ih =>
    simp only [List.map_cons, List.foldl_cons]
    rw [ih]
    simp [streamStep]

theorem chunks_copy (render : String → String) (cs : List String)
    (st : SessionState) :
    ((cs.map WsEvent.chunk).foldl (streamStep render) st).copyText
      = st.copyText := by
  induction cs generalizing st with
  | nil => rfl
  | cons c cs ih =>
    simp only [List.map_cons, List.foldl_cons]
    rw [ih]
    simp [streamStep]

theorem chunks_markup (render : String → String) (c : String) (cs : List String)
    (st : SessionState) :
    (((c :: cs).map WsEvent.chunk).foldl (streamStep render) st).markup
      = render ((((c :: cs).map WsEvent.chunk).foldl
          (streamStep render) st).accumulatedText) := by
  induction cs generalizing c st with
  | nil => simp [streamStep]
  | cons c' cs ih =>
    simp only [List.map_cons, List.foldl_cons]
    have h := ih c' (streamStep render st (WsEvent.chunk c))
    simpa only [List.map_cons, List.foldl_cons] using h

theorem settled_absorb (render : String → String) (t : List WsEvent)
    (st : SessionState) (b : Bool) (h : st.settled = some b) :
    (t.foldl (streamStep render) st).settled = some b
      ∧ (t.foldl (streamStep render) st).settleCount = st.settleCount := by
  induction t generalizing st with
  | nil => exact ⟨h, rfl⟩
  | cons e t ih =>
    simp only [List.foldl_cons]
    cases e with
    | chunk s => exact ih _ (by simpa [streamStep] using h)
    | error =>
      have hs : (streamStep render st WsEvent.error).settled = some b := by
        simp [streamStep, h]
      have hc : (streamStep render st WsEvent.error).settleCount
          = st.settleCount := by
        simp [streamStep, h]
      rcases ih _ hs with ⟨h1, h2⟩
      exact ⟨h1, by rw [h2, hc]⟩
    | close =>
      have hs : (streamStep render st WsEvent.close).settled = some b := by
        simp [streamStep, h]
      have hc : (streamStep render st WsEvent.close).settleCount
          = st.settleCount := by
        simp [streamStep, h]
      rcases ih _ hs with ⟨h1, h2⟩
      exact ⟨h1, by rw [h2, hc]⟩

theorem close_preserves_acc (render : String → String) (st : SessionState) :
    (streamStep render st WsEvent.close).accumulatedText
      = st.accumulatedText := by
  cases h : st.settled <;> simp [streamStep, h]

/-! ## Claims about the streaming session -/

/-- Claim C1. For any sequence of chunks delivered on one session's channel,
the accumulated text at close is the concatenation of the chunks in delivery
order, and re-chunking the same total text yields the same final raw text. -/
theorem c1_rawText_is_chunk_concat (render : String → String)
    (cs cs' : List String) :
    (streamReplyWebSocket render
        (cs.map WsEvent.chunk ++ [WsEvent.close])).accumulatedText
      = String.join cs
    ∧ (String.join cs = String.join cs' →
        (streamReplyWebSocket render
            (cs.map WsEvent.chunk ++ [WsEvent.close])).accumulatedText
          = (streamReplyWebSocket render
              (cs'.map WsEvent.chunk ++ [WsEvent.close])).accumulatedText) := by
  have key : ∀ ds : List String,
      (streamReplyWebSocket render
          (ds.map WsEvent.chunk ++ [WsEvent.close])).accumulatedText
        = String.join ds := by
    intro ds
    unfold streamReplyWebSocket
    rw [List.foldl_append]
    simp only [List.foldl_cons, List.foldl_nil]
    rw [close_preserves_acc, chunks_acc]
    rfl
  refine ⟨key cs, fun h => ?_⟩
  rw [key cs, key cs', h]

/-- Claim C1 witness. Two different chunkings of `"Hi there!"` both
accumulate to `"Hi there!"`. -/
theorem c1_rawText_is_chunk_concat_w :
    (streamReplyWebSocket (fun s => s)
        ((["Hi", " there", "!"]).map WsEvent.chunk ++ [WsEvent.close])).accumulatedText
      = String.join ["Hi", " there", "!"]
    ∧ (streamReplyWebSocket (fun s => s)
        ((["Hi", " there", "!"]).map WsEvent.chunk ++ [WsEvent.close])).accumulatedText
      = (streamReplyWebSocket (fun s => s)
          ((["Hi t", "here!"]).map WsEvent.chunk ++ [WsEvent.close])).accumulatedText := by
  have h := c1_rawText_is_chunk_concat (fun s => s) ["Hi", " there", "!"] ["Hi t", "here!"]
  exact ⟨h.1, h.2 (by decide)⟩

/-- Claim C2. While streaming (a trace of chunk events), after every chunk the
displayed markup is the renderer applied to the full accumulated text, so the
markup is a pure function of the current raw text. -/
theorem c2_markup_renders_accumulated (render : String → String)
    (cs : List String) (h : cs ≠ []) :
    (streamReplyWebSocket render (cs.map WsEvent.chunk)).markup
      = render (streamReplyWebSocket render
          (cs.map WsEvent.chunk)).accumulatedText := by
  cases cs with
  | nil => exact absurd rfl h
  | cons c cs => exact chunks_markup render c cs initSession

/-- Claim C2 witness. After the chunks `"Hi"`, `"!"` the markup is the render
of `"Hi!"`. -/
theorem c2_markup_renders_accumulated_w :
    (streamReplyWebSocket (fun s => "(p)" ++ s)
        ((["Hi", "!"]).map WsEvent.chunk)).markup
      = (fun s => "(p)" ++ s) ((streamReplyWebSocket (fun s => "(p)" ++ s)
          ((["Hi", "!"]).map WsEvent.chunk)).accumulatedText) :=
  c2_markup_renders_accumulated (fun s => "(p)" ++ s) ["Hi", "!"] (by decide)

/-- Claim C5. On any channel trace of chunks followed by an optional error
event and the close event (WebSocket delivery: after an error the close
still fires), the session settles exactly once: the finalization count is 1
and the session is terminal. -/
theorem c5_finalized_exactly_once (render : String → String)
    (cs : List String) (e : Bool) :
    (streamReplyWebSocket render
        (cs.map WsEvent.chunk ++ (cond e [WsEvent.error] [])
          ++ [WsEvent.close])).settleCount = 1
    ∧ (streamReplyWebSocket render
        (cs.map WsEvent.chunk ++ (cond e [WsEvent.error] [])
          ++ [WsEvent.close])).settled.isSome = true := by
  have hset : ((cs.map WsEvent.chunk).foldl (streamStep render)
      initSession).settled = none := by
    rw [chunks_settled]
    rfl
  have hcnt : ((cs.map WsEvent.chunk).foldl (streamStep render)
      initSession).settleCount = 0 := by
    rw [chunks_count]
    rfl
  cases e with
  | false =>
    unfold streamReplyWebSocket
    rw [List.foldl_append, List.foldl_append]
    simp only [cond_false, List.foldl_nil, List.foldl_cons]
    constructor
    · simp [streamStep, hset, hcnt]
    · simp [streamStep, hset]
  | true =>
    unfold streamReplyWebSocket
    rw [List.foldl_append, List.foldl_append]
    simp only [cond_true, List.foldl_cons, List.foldl_nil]
    constructor
    · simp [streamStep, hset, hcnt]
    · simp [streamStep, hset]

/-- Claim C10. If the channel closes normally with no chunks delivered, the
session finalizes exactly once as a non-error turn with empty final text,
the copy affordance is enabled with that empty text, and the controller's
log holds the user message and the bot message with empty content (and no
apology message). -/
theorem c10_close_without_chunks (render : String → String) :
    (streamReplyWebSocket render [WsEvent.close]).settled = some true
    ∧ (streamReplyWebSocket render [WsEvent.close]).settleCount = 1
    ∧ (streamReplyWebSocket render [WsEvent.close]).accumulatedText = ""
    ∧ (streamReplyWebSocket render [WsEvent.close]).copyText = some ""
    ∧ handleSendMessage render "hi" [WsEvent.close] []
        = ([⟨Sender.user, "hi", "hi"⟩, ⟨Sender.bot, "", ""⟩], true) := by
  refine ⟨rfl, rfl, rfl, rfl, ?_⟩
  rfl

theorem error_markup (render : String → String) (st : SessionState) :
    (streamStep render st WsEvent.error).markup = st.markup ++ errorNotice := by
  cases h : st.settled <;> simp [streamStep, h]

theorem close_markup (render : String → String) (st : SessionState) :
    (streamStep render st WsEvent.close).markup = st.markup := by
  cases h : st.settled <;> simp [streamStep, h]

theorem error_settled_of_none (render : String → String) (st : SessionState)
    (h : st.settled = none) :
    (streamStep render st WsEvent.error).settled = some false := by
  simp [streamStep, h]

theorem close_settled_of_some (render : String → String) (st : SessionState)
    (b : Bool) (h : st.settled = some b) :
    (streamStep render st WsEvent.close).settled = some b := by
  simp [streamStep, h]

theorem error_acc (render : String → String) (st : SessionState) :
    (streamStep render st WsEvent.error).accumulatedText
      = st.accumulatedText := by
  cases h : st.settled <;> simp [streamStep, h]

theorem run_close_settled (render : String → String) (cs : List String) :
    (streamReplyWebSocket render
        (cs.map WsEvent.chunk ++ [WsEvent.close])).settled = some true := by
  unfold streamReplyWebSocket
  rw [List.foldl_append]
  simp only [List.foldl_cons, List.foldl_nil]
  have hset : ((cs.map WsEvent.chunk).foldl (streamStep render)
      initSession).settled = none := by
    rw [chunks_settled]
    rfl
  simp [streamStep, hset]

theorem run_error_close (render : String → String) (cs : List String) :
    streamReplyWebSocket render
        (cs.map WsEvent.chunk ++ [WsEvent.error, WsEvent.close])
      = streamStep render
          (streamStep render
            ((cs.map WsEvent.chunk).foldl (streamStep render) initSession)
            WsEvent.error)
          WsEvent.close := by
  unfold streamReplyWebSocket
  rw [List.foldl_append]
  simp only [List.foldl_cons, List.foldl_nil]

/-! ## Claims about the controller -/

/-- Claim C3 counterexample. On input `"hi"` with a channel that errors and
then closes, `handleSendMessage` appends three messages — one user message
and **two** bot messages (the streaming one and the apology appended by the
`catch` block) — refuting "exactly one user message and exactly one bot
message, and no other messages". -/
theorem c3_counterexample :
    ((handleSendMessage (fun s => s) "hi"
        [WsEvent.error, WsEvent.close] []).1.map Msg.sender)
      = [Sender.user, Sender.bot, Sender.bot]
    ∧ (handleSendMessage (fun s => s) "hi"
        [WsEvent.error, WsEvent.close] []).1.length ≠ 2 := by
  decide

/-- Claim C3 (amended). For every input with non-empty trimmed text, `submit`
appends exactly one user message followed by exactly one bot message when the
session closes without a transport error; when a transport error occurs, one
additional bot (apology) message is appended after them. -/
theorem c3_submit_appends (render : String → String) (inputValue : String)
    (cs : List String) (store : List Msg) (h : strTrim inputValue ≠ "") :
    (∃ b : Msg, b.sender = Sender.bot ∧
      handleSendMessage render inputValue
          (cs.map WsEvent.chunk ++ [WsEvent.close]) store
        = (store ++ [⟨Sender.user, strTrim inputValue, strTrim inputValue⟩, b],
            true))
    ∧ (∃ b : Msg, b.sender = Sender.bot ∧
      handleSendMessage render inputValue
          (cs.map WsEvent.chunk ++ [WsEvent.error, WsEvent.close]) store
        = (store ++ [⟨Sender.user, strTrim inputValue, strTrim inputValue⟩, b,
            ⟨Sender.bot, apologyText, render apologyText⟩], true)) := by
  constructor
  · refine ⟨⟨Sender.bot,
      (streamReplyWebSocket render
        (cs.map WsEvent.chunk ++ [WsEvent.close])).accumulatedText,
      (streamReplyWebSocket render
        (cs.map WsEvent.chunk ++ [WsEvent.close])).markup⟩, rfl, ?_⟩
    have hs := run_close_settled render cs
    simp [handleSendMessage, h, hs]
  · refine ⟨⟨Sender.bot,
      (streamReplyWebSocket render
        (cs.map WsEvent.chunk ++ [WsEvent.error, WsEvent.close])).accumulatedText,
      (streamReplyWebSocket render
        (cs.map WsEvent.chunk ++ [WsEvent.error, WsEvent.close])).markup⟩,
      rfl, ?_⟩
    have hs : (streamReplyWebSocket render
        (cs.map WsEvent.chunk ++ [WsEvent.error, WsEvent.close])).settled
          = some false := by
      rw [run_error_close]
      have hset : ((cs.map WsEvent.chunk).foldl (streamStep render)
          initSession).settled = none := by
        rw [chunks_settled]
        rfl
      exact close_settled_of_some render _ false
        (error_settled_of_none render _ hset)
    simp [handleSendMessage, h, hs]

/-- Claim C3 witness. Concrete instance: input `"hi"`, one chunk, both a clean
close and an error-then-close trace. -/
theorem c3_submit_appends_w :
    (∃ b : Msg, b.sender = Sender.bot ∧
      handleSendMessage (fun s => s) "hi"
          ((["x"]).map WsEvent.chunk ++ [WsEvent.close]) []
        = ([⟨Sender.user, strTrim "hi", strTrim "hi"⟩, b], true))
    ∧ (∃ b : Msg, b.sender = Sender.bot ∧
      handleSendMessage (fun s => s) "hi"
          ((["x"]).map WsEvent.chunk ++ [WsEvent.error, WsEvent.close]) []
        = ([⟨Sender.user, strTrim "hi", strTrim "hi"⟩, b,
            ⟨Sender.bot, apologyText, (fun s => s) apologyText⟩], true)) := by
  have h := c3_submit_appends (fun s => s) "hi" ["x"] [] (by decide)
  simpa using h

/-- Claim C4. For every input whose trimmed text is empty, `submit` is a
complete no-op: the display log is unchanged and no channel is opened. -/
theorem c4_empty_input_noop (render : String → String) (inputValue : String)
    (trace : List WsEvent) (store : List Msg) (h : strTrim inputValue = "") :
    handleSendMessage render inputValue trace store = (store, false) := by
  simp [handleSendMessage, h]

/-- Claim C4 witness. Whitespace-only input `"   "` is a no-op even with a
pending trace and a non-empty store. -/
theorem c4_empty_input_noop_w :
    handleSendMessage (fun s => s) "   " [WsEvent.chunk "x", WsEvent.close]
        [⟨Sender.user, "a", "a"⟩]
      = ([⟨Sender.user, "a", "a"⟩], false) :=
  c4_empty_input_noop (fun s => s) "   " [WsEvent.chunk "x", WsEvent.close]
    [⟨Sender.user, "a", "a"⟩] (by decide)

/-- Claim C6. A transport failure after any number of chunks (any non-terminal
state): the bot message's markup is appended with the visible (non-empty)
error notice, the session settles rejected (`errored`) and stays so whatever
events follow (terminal), and the controller absorbs the failure — it
returns a normal display log ending in the apology message rather than
letting the failure escape. -/
theorem c6_transport_failure (render : String → String) (cs : List String)
    (rest : List WsEvent) (inputValue : String) (store : List Msg)
    (h : strTrim inputValue ≠ "") :
    (streamStep render
        ((cs.map WsEvent.chunk).foldl (streamStep render) initSession)
        WsEvent.error).markup
      = ((cs.map WsEvent.chunk).foldl (streamStep render)
          initSession).markup ++ errorNotice
    ∧ errorNotice ≠ ""
    ∧ (streamStep render
        ((cs.map WsEvent.chunk).foldl (streamStep render) initSession)
        WsEvent.error).settled = some false
    ∧ (streamReplyWebSocket render
        (cs.map WsEvent.chunk ++ WsEvent.error :: rest)).settled = some false
    ∧ handleSendMessage render inputValue
        (cs.map WsEvent.chunk ++ [WsEvent.error, WsEvent.close]) store
      = (store ++ [⟨Sender.user, strTrim inputValue, strTrim inputValue⟩,
          ⟨Sender.bot,
            ((cs.map WsEvent.chunk).foldl (streamStep render)
              initSession).accumulatedText,
            ((cs.map WsEvent.chunk).foldl (streamStep render)
              initSession).markup ++ errorNotice⟩,
          ⟨Sender.bot, apologyText, render apologyText⟩], true) := by
  have hset : ((cs.map WsEvent.chunk).foldl (streamStep render)
      initSession).settled = none := by
    rw [chunks_settled]
    rfl
  have herr := error_settled_of_none render _ hset
  refine ⟨error_markup render _, by decide, herr, ?_, ?_⟩
  · unfold streamReplyWebSocket
    rw [List.foldl_append]
    simp only [List.foldl_cons]
    exact (settled_absorb render rest _ false herr).1
  · have hs : (streamReplyWebSocket render
        (cs.map WsEvent.chunk ++ [WsEvent.error, WsEvent.close])).settled
          = some false := by
      rw [run_error_close]
      exact close_settled_of_some render _ false herr
    have hacc : (streamReplyWebSocket render
        (cs.map WsEvent.chunk ++ [WsEvent.error, WsEvent.close])).accumulatedText
          = ((cs.map WsEvent.chunk).foldl (streamStep render)
              initSession).accumulatedText := by
      rw [run_error_close, close_preserves_acc, error_acc]
    have hmk : (streamReplyWebSocket render
        (cs.map WsEvent.chunk ++ [WsEvent.error, WsEvent.close])).markup
          = ((cs.map WsEvent.chunk).foldl (streamStep render)
              initSession).markup ++ errorNotice := by
      rw [run_error_close, close_markup, error_markup]
    simp [handleSendMessage, h, hs, hacc, hmk]

/-- Claim C6 witness. Concrete instance: input `"hi"`, one chunk `"x"`, then
a transport error. -/
theorem c6_transport_failure_w :
    (streamStep (fun s => s)
        (((["x"]).map WsEvent.chunk).foldl (streamStep (fun s => s)) initSession)
        WsEvent.error).markup
      = ((((["x"])).map WsEvent.chunk).foldl (streamStep (fun s => s))
          initSession).markup ++ errorNotice
    ∧ errorNotice ≠ ""
    ∧ (streamStep (fun s => s)
        (((["x"]).map WsEvent.chunk).foldl (streamStep (fun s => s)) initSession)
        WsEvent.error).settled = some false
    ∧ (streamReplyWebSocket (fun s => s)
        ((["x"]).map WsEvent.chunk ++ WsEvent.error :: [WsEvent.close])).settled
      = some false
    ∧ handleSendMessage (fun s => s) "hi"
        ((["x"]).map WsEvent.chunk ++ [WsEvent.error, WsEvent.close]) []
      = ([⟨Sender.user, strTrim "hi", strTrim "hi"⟩,
          ⟨Sender.bot,
            (((["x"]).map WsEvent.chunk).foldl (streamStep (fun s => s))
              initSession).accumulatedText,
            (((["x"]).map WsEvent.chunk).foldl (streamStep (fun s => s))
              initSession).markup ++ errorNotice⟩,
          ⟨Sender.bot, apologyText, (fun s => s) apologyText⟩], true) := by
  have h := c6_transport_failure (fun s => s) ["x"] [WsEvent.close] "hi" []
    (by decide)
  simpa using h

/-! ## Exporter lemmas -/

theorem isPrefixOf_self_append (l b : List Char) :
    l.isPrefixOf (l ++ b) = true := by
  induction l with
  | nil => cases b <;> rfl
  | cons x l ih =>
    rw [List.cons_append]
    show (x == x && l.isPrefixOf (l ++ b)) = true
    rw [ih]
    simp

theorem isPrefixOf_cons_ne (c0 x : Char) (pt rest : List Char) (h : c0 ≠ x) :
    (c0 :: pt).isPrefixOf (x :: rest) = false := by
  show (c0 == x && pt.isPrefixOf rest) = false
  have hx : (c0 == x) = false := by
    simp [h]
  rw [hx]
  rfl

theorem splitFirst_skip (c0 : Char) (pt a b : List Char) (ha : c0 ∉ a) :
    splitFirst (c0 :: pt) (a ++ (c0 :: pt) ++ b) = some (a, b) := by
  induction a with
  | nil =>
    simp only [List.nil_append]
    have hpre : (c0 :: pt).isPrefixOf ((c0 :: pt) ++ b) = true :=
      isPrefixOf_self_append _ _
    rw [List.cons_append, splitFirst]
    rw [← List.cons_append, if_pos hpre, List.drop_left]
  | cons x a ih =>
    have hxc : c0 ≠ x := fun e => ha (e ▸ List.mem_cons_self x a)
    have hnp : (c0 :: pt).isPrefixOf (x :: (a ++ (c0 :: pt) ++ b)) = false :=
      isPrefixOf_cons_ne c0 x pt _ hxc
    have ha' : c0 ∉ a := fun hm => ha (List.mem_cons_of_mem x hm)
    simp only [List.cons_append, splitFirst, List.append_eq, hnp,
      Bool.false_eq_true, if_false]
    rw [ih ha']
    rfl

theorem dropWhile_append_all {p : Char → Bool} (l₁ l₂ : List Char)
    (h : ∀ c ∈ l₁, p c = true) :
    (l₁ ++ l₂).dropWhile p = l₂.dropWhile p := by
  induction l₁ with
  | nil => rfl
  | cons x l ih =>
    rw [List.cons_append, List.dropWhile_cons, if_pos (h x (List.mem_cons_self x l))]
    exact ih fun c hc => h c (List.mem_cons_of_mem x hc)

theorem dropWhile_append_of_ne_nil {p : Char → Bool} (z w : List Char)
    (h : z.dropWhile p ≠ []) :
    (z ++ w).dropWhile p = z.dropWhile p ++ w := by
  induction z with
  | nil => exact absurd rfl h
  | cons x z ih =>
    by_cases hx : p x = true
    · rw [List.cons_append, List.dropWhile_cons, if_pos hx,
        List.dropWhile_cons, if_pos hx]
      exact ih (by rwa [List.dropWhile_cons, if_pos hx] at h)
    · rw [List.cons_append, List.dropWhile_cons, if_neg hx,
        List.dropWhile_cons, if_neg hx, List.cons_append]

theorem dropWhile_head_false {p : Char → Bool} (l : List Char) (c : Char)
    (r : List Char) (h : l.dropWhile p = c :: r) : p c = false := by
  induction l with
  | nil => simp at h
  | cons x l ih =>
    by_cases hx : p x = true
    · rw [List.dropWhile_cons, if_pos hx] at h
      exact ih h
    · rw [List.dropWhile_cons, if_neg hx] at h
      injection h with h1 _
      rw [← h1]
      exact Bool.eq_false_iff.mpr hx

theorem dropWhile_idem {p : Char → Bool} (l : List Char) :
    (l.dropWhile p).dropWhile p = l.dropWhile p := by
  induction l with
  | nil => rfl
  | cons x l ih =>
    by_cases hx : p x = true
    · rw [List.dropWhile_cons, if_pos hx]
      exact ih
    · rw [List.dropWhile_cons, if_neg hx, List.dropWhile_cons, if_neg hx]

theorem rtrim_append_all (t w : List Char) (hw : ∀ c ∈ w, isWs c = true) :
    rtrim (t ++ w) = rtrim t := by
  unfold rtrim
  rw [List.reverse_append]
  rw [dropWhile_append_all _ _ fun c hc => hw c (List.mem_reverse.mp hc)]

theorem rtrim_idem (l : List Char) : rtrim (rtrim l) = rtrim l := by
  unfold rtrim
  rw [List.reverse_reverse, dropWhile_idem]

theorem rtrim_decomp (l : List Char) : ∃ w, l = rtrim l ++ w := by
  refine ⟨(l.reverse.takeWhile isWs).reverse, ?_⟩
  unfold rtrim
  rw [← List.reverse_append, List.takeWhile_append_dropWhile,
    List.reverse_reverse]

theorem trim_append_all (z w : List Char) (hw : ∀ c ∈ w, isWs c = true) :
    trimChars (z ++ w) = trimChars z := by
  unfold trimChars ltrim
  by_cases hz : z.dropWhile isWs = []
  · have hza : ∀ c ∈ z, isWs c = true := List.dropWhile_eq_nil_iff.mp hz
    rw [dropWhile_append_all z w hza, List.dropWhile_eq_nil_iff.mpr hw, hz]
  · rw [dropWhile_append_of_ne_nil z w hz]
    exact rtrim_append_all _ w hw

theorem trim_idem (l : List Char) : trimChars (trimChars l) = trimChars l := by
  unfold trimChars
  have hyl : ltrim (ltrim l) = ltrim l := dropWhile_idem l
  have key : ltrim (rtrim (ltrim l)) = rtrim (ltrim l) := by
    cases hr : rtrim (ltrim l) with
    | nil => rfl
    | cons c r =>
      rcases rtrim_decomp (ltrim l) with ⟨w, hw⟩
      rw [hr, List.cons_append] at hw
      have hc : isWs c = false :=
        dropWhile_head_false (ltrim l) c (r ++ w) (hyl.trans hw)
      show (c :: r).dropWhile isWs = c :: r
      rw [List.dropWhile_cons, if_neg (by simp [hc])]
  rw [key, rtrim_idem]

theorem extract_fold_nil (msgs : List (List Char)) (acc : List Char)
    (h : ∀ m ∈ msgs, extractFromMessage m = []) :
    msgs.foldl (fun acc m => acc ++ extractFromMessage m) acc = acc := by
  induction msgs generalizing acc with
  | nil => rfl
  | cons m ms ih =>
    simp only [List.foldl_cons]
    rw [h m (List.mem_cons_self m ms), List.append_nil]
    exact ih acc fun x hx => h x (List.mem_cons_of_mem m hx)

theorem extract_fold_append (msgs : List (List Char)) (acc : List Char) :
    msgs.foldl (fun acc m => acc ++ extractFromMessage m) acc
      = acc ++ msgs.foldl (fun acc m => acc ++ extractFromMessage m) [] := by
  induction msgs generalizing acc with
  | nil => simp
  | cons m ms ih =>
    simp only [List.foldl_cons]
    rw [ih (acc ++ extractFromMessage m), ih ([] ++ extractFromMessage m)]
    simp [List.append_assoc]

theorem extractFromMessage_eq_nil (m : List Char)
    (ho : containsSub openTag m = false)
    (hf : containsSub essayMarker m = false) :
    extractFromMessage m = [] := by
  have ho' : splitFirst openTag m = none := by
    cases h : splitFirst openTag m with
    | none => rfl
    | some v =>
      exfalso
      unfold containsSub at ho
      rw [h] at ho
      exact absurd ho (by simp)
  have hf' : splitFirst essayMarker m = none := by
    cases h : splitFirst essayMarker m with
    | none => rfl
    | some v =>
      exfalso
      unfold containsSub at hf
      rw [h] at hf
      exact absurd hf (by simp)
  simp [extractFromMessage, fallbackExtract, ho', hf']

theorem extractFromMessage_pair (a inner rest : List Char)
    (ha : '<' ∉ a) (hi : '<' ∉ inner) (hne : inner ≠ []) :
    extractFromMessage (a ++ openTag ++ inner ++ closeTag ++ rest)
      = trimChars inner ++ nlnl := by
  have hopen : splitFirst openTag
      (a ++ (openTag ++ (inner ++ (closeTag ++ rest))))
      = some (a, inner ++ (closeTag ++ rest)) := by
    have h2 := splitFirst_skip '<' ['e', 's', 's', 'a', 'y', '>'] a
      (inner ++ (closeTag ++ rest)) ha
    rw [List.append_assoc] at h2
    exact h2
  have hclose : splitFirst closeTag (inner ++ (closeTag ++ rest))
      = some (inner, rest) := by
    have h2 := splitFirst_skip '<' ['/', 'e', 's', 's', 'a', 'y', '>'] inner
      rest hi
    rw [List.append_assoc] at h2
    exact h2
  simp only [extractFromMessage, List.append_assoc, hopen, hclose]
  simp [hne]

theorem extract_single_pair (p q : List (List Char)) (a inner rest : List Char)
    (hpq : ∀ m ∈ p ++ q, extractFromMessage m = [])
    (ha : '<' ∉ a) (hi : '<' ∉ inner) (hne : inner ≠ []) :
    extractEssayContent (p ++ (a ++ openTag ++ inner ++ closeTag ++ rest) :: q)
      = trimChars inner := by
  unfold extractEssayContent
  rw [List.foldl_append]
  rw [extract_fold_nil p [] fun m hm => hpq m (List.mem_append_left q hm)]
  simp only [List.foldl_cons, List.nil_append]
  rw [extractFromMessage_pair a inner rest ha hi hne]
  rw [extract_fold_append]
  rw [extract_fold_nil q [] fun m hm => hpq m (List.mem_append_right p hm)]
  rw [List.append_nil]
  rw [trim_append_all _ nlnl (by decide)]
  exact trim_idem inner

/-! ## Claims about the exporter -/

/-- Claim C7 counterexample. The message
`"📝 Generating comprehensive essay..X<essay></essay>"` contains a start/end
marker pair (in exactly one message) whose trimmed inner content is empty,
yet `extract` returns `"X<essay></essay>"`, not that trimmed inner content:
because the JS guard `if (essayMatch && essayMatch[1])` treats the empty
group as falsy, the code falls back to the literal-marker branch even though
the pair is present. -/
theorem c7_counterexample :
    extractEssayContent
        [("📝 Generating comprehensive essay..X<essay></essay>").data]
      = ("X<essay></essay>").data
    ∧ ("X<essay></essay>").data ≠ trimChars [] := by
  constructor
  · rfl
  · decide

/-- Claim C7 (amended). `extract` scans bot messages in insertion order; for
each it takes the content delimited by the first start/end marker pair when
that content is non-empty, otherwise falls back to taking everything after
the literal marker; matches are trimmed and separated by a blank line.  It
returns empty text when no bot message contains either marker form, and it
returns exactly the trimmed inner content when a marker pair with non-empty
content is present in exactly one message. -/
theorem c7_extract_marker_scan (msgs p q : List (List Char))
    (a inner rest : List Char) :
    ((∀ m ∈ msgs, containsSub openTag m = false
        ∧ containsSub essayMarker m = false) →
      extractEssayContent msgs = [])
    ∧ ((∀ m ∈ p ++ q, containsSub openTag m = false
          ∧ containsSub essayMarker m = false) →
        '<' ∉ a → '<' ∉ inner → inner ≠ [] →
        extractEssayContent
            (p ++ (a ++ openTag ++ inner ++ closeTag ++ rest) :: q)
          = trimChars inner) := by
  constructor
  · intro h
    unfold extractEssayContent
    rw [extract_fold_nil msgs []
      fun m hm => extractFromMessage_eq_nil m (h m hm).1 (h m hm).2]
    rfl
  · intro h ha hi hne
    exact extract_single_pair p q a inner rest
      (fun m hm => extractFromMessage_eq_nil m (h m hm).1 (h m hm).2)
      ha hi hne

/-- Claim C7 witness. No-marker messages extract to empty; a single message
with the pair around `" The essay. "` (plus a marker-free neighbour)
extracts to exactly `"The essay."`. -/
theorem c7_extract_marker_scan_w :
    extractEssayContent [("hello world").data, ("no markers here").data] = []
    ∧ extractEssayContent
        ([("note").data] ++
          (("pre ").data ++ openTag ++ (" The essay. ").data ++ closeTag
            ++ (" post").data) :: [])
      = trimChars (" The essay. ").data := by
  refine ⟨?_, ?_⟩
  · exact (c7_extract_marker_scan
      [("hello world").data, ("no markers here").data] [] [] [] [] []).1
      (by decide)
  · exact (c7_extract_marker_scan [] [("note").data] []
      ("pre ").data (" The essay. ").data (" post").data).2
      (by decide) (by decide) (by decide) (by decide)

/-- Claim C8. `export` never throws: it is a total function that for any
(non-empty) input text deterministically yields the structured (paginated,
line-wrapped via `splitTextToSize(content, 180)`) artifact when the jsPDF
capability is available, and the plain-text `essay.txt` artifact otherwise,
so the caller always receives a downloadable artifact. -/
theorem c8_export_total (splitTextToSize : String → Nat → List String)
    (content : String) (h : content ≠ "") :
    generatePDF splitTextToSize true content
        = Artifact.pdfDoc (splitTextToSize content 180)
    ∧ generatePDF splitTextToSize false content
        = Artifact.textFile content "essay.txt"
    ∧ ∀ cap : Bool, ∃ a : Artifact,
        generatePDF splitTextToSize cap content = a :=
  ⟨rfl, rfl, fun _ => ⟨_, rfl⟩⟩

/-- Claim C8 witness. Concrete instance on the text `"essay"` with a trivial
line-wrapper. -/
theorem c8_export_total_w :
    generatePDF (fun s _ => [s]) true "essay"
        = Artifact.pdfDoc ((fun (s : String) (_ : Nat) => [s]) "essay" 180)
    ∧ generatePDF (fun s _ => [s]) false "essay"
        = Artifact.textFile "essay" "essay.txt"
    ∧ ∀ cap : Bool, ∃ a : Artifact,
        generatePDF (fun s _ => [s]) cap "essay" = a :=
  c8_export_total (fun s _ => [s]) "essay" (by decide)

/-- Claim C9 counterexample. In a message whose first pair has empty content
and which also contains the fallback literal, the content of a *later* pair
does reach the output: appending `"<essay>hi</essay>"` to the message changes
the extracted text (from `"<essay></essay>"` to
`"<essay></essay><essay>hi</essay>"`), so additional marker pairs are not
always without effect. -/
theorem c9_counterexample :
    extractEssayContent
        [("📝 Generating comprehensive essay..<essay></essay><essay>hi</essay>").data]
      = ("<essay></essay><essay>hi</essay>").data
    ∧ extractEssayContent
        [("📝 Generating comprehensive essay..<essay></essay>").data]
      = ("<essay></essay>").data := by
  constructor
  · rfl
  · rfl

/-- Claim C9 (amended). When the first (non-greedy) start/end marker pair of a
bot message has non-empty content, `extract` takes only that first pair:
whatever follows — including any additional marker pairs and their contents —
contributes nothing to the extracted text. -/
theorem c9_first_pair_only (a c1 c2 mid rest : List Char)
    (ha : '<' ∉ a) (hc1 : '<' ∉ c1) (hne : c1 ≠ []) :
    extractEssayContent
        [a ++ openTag ++ c1 ++ closeTag
          ++ (mid ++ openTag ++ c2 ++ closeTag ++ rest)]
      = trimChars c1 :=
  extract_single_pair [] [] a c1 (mid ++ openTag ++ c2 ++ closeTag ++ rest)
    (by simp) ha hc1 hne

/-- Claim C9 witness. With first pair content `" first "` and a second pair
containing `"second"`, extraction yields exactly `"first"`. -/
theorem c9_first_pair_only_w :
    extractEssayContent
        [("intro ").data ++ openTag ++ (" first ").data ++ closeTag
          ++ ((" between ").data ++ openTag ++ ("second").data ++ closeTag
            ++ (" tail").data)]
      = trimChars (" first ").data :=
  c9_first_pair_only ("intro ").data (" first ").data ("second").data
    (" between ").data (" tail").data (by decide) (by decide) (by decide)

end ResearchService
